import Mathlib

/-!
Verification of the biobuild molecular-connectivity core against its
natural-language specification.  The Python sources are shallowly embedded:
pure functions become Lean functions, mutation becomes explicit state passing,
Python exceptions become `Except.error` results, floats become rationals, and
external library calls (networkx, scipy) are passed in as data or as abstract
maps, as noted at each definition.
-/

set_option maxRecDepth 4000

namespace Biobuild

/-! ## Embedding of biobuild/core/Linkage.py -/

/-- Modelled from the spec: `utils.ic.InternalCoordinates` lives in
biobuild/utils/ic.py, which is not among the provided sources.  Per the spec an
internal-coordinate entry is keyed by four atom ids and carries five numbers
(two bond lengths, two angles, one dihedral), which is exactly the arity used
by the call `InternalCoordinates(*key, *value)` in Linkage.py line 179. -/
structure InternalCoordinates where
  atom1 : String
  atom2 : String
  atom3 : String
  atom4 : String
  bond_length_12 : ℚ
  bond_length_34 : ℚ
  bond_angle_123 : ℚ
  bond_angle_234 : ℚ
  dihedral : ℚ
deriving DecidableEq, Repr

/-- Embeds the `Linkage` class state (Linkage.py lines 121-169).  Python
strings used as delete ids are modelled as lists of characters so that the
first-character tests and slicing of the source translate directly.  The
`bonds` and `internal_coordinates` containers come from the parent class
`AbstractEntity_with_IC` (biobuild/utils/abstract.py, not among the provided
sources); modelled from the spec as lists that the add methods append to. -/
structure Linkage where
  id : Option String
  bonds : List (String × String)
  delete_ids : List (List Char)
  internal_coordinates : List InternalCoordinates
deriving DecidableEq, Repr

/-- A fresh `Linkage(id)` (Linkage.py lines 126-128). -/
def Linkage.empty (id : Option String) : Linkage :=
  { id := id, bonds := [], delete_ids := [], internal_coordinates := [] }

/-- Modelled from the spec: `add_bond` of the parent class appends the bond
descriptor to the recipe. -/
def Linkage.add_bond (l : Linkage) (b : String × String) : Linkage :=
  { l with bonds := l.bonds ++ [b] }

/-- Modelled from the spec: `add_internal_coordinates` of the parent class
appends the entry to the internal-coordinate table. -/
def Linkage.add_internal_coordinates (l : Linkage) (ic : InternalCoordinates) : Linkage :=
  { l with internal_coordinates := l.internal_coordinates ++ [ic] }

/-- Embeds `Linkage.add_delete` (Linkage.py lines 144-167).  With no `_from`
marker the source checks `id[0]`, which on an empty Python string raises
IndexError before the membership test; with a marker the id is prefixed by the
side digit and appended without any check on the id itself. -/
def Linkage.add_delete (l : Linkage) (id : List Char) (_from : Option String) :
    Except String Linkage :=
  match _from with
  | none =>
    match id with
    | [] => .error "IndexError: string index out of range"
    | c :: _ =>
      if c = '1' ∨ c = '2' then
        .ok { l with delete_ids := l.delete_ids ++ [id] }
      else
        .error "The atom ID must start with either 1 or 2 to indicate from which structure it is to be deleted."
  | some f =>
    if f = "source" then
      .ok { l with delete_ids := l.delete_ids ++ ['2' :: id] }
    else if f = "target" then
      .ok { l with delete_ids := l.delete_ids ++ ['1' :: id] }
    else
      .error "The _from argument must be either source or target."

/-- Embeds the `Linkage.deletes` property (Linkage.py lines 130-142): split the
stored ids by their first character (every stored id is nonempty, since both
paths of `add_delete` only store ids with a leading side digit) and strip it. -/
def Linkage.deletes (l : Linkage) : List (List Char) × List (List Char) :=
  ( (l.delete_ids.filter (fun i => i.headI = '1')).map (fun i => i.drop 1)
  , (l.delete_ids.filter (fun i => i.headI = '2')).map (fun i => i.drop 1) )

/-- Embeds the loop of `_dict_to_ics` (Linkage.py lines 176-184).  The Python
dict argument is modelled as the list of its items in order.  A key of length
four together with a value of length five builds an entry; otherwise the
length-four check raises first, then the length-five check.  The source
function has no return statement, so after a clean loop it returns Python
`None` - modelled by `Except.ok none` - and the accumulated list is lost. -/
def _dict_to_ics_loop : List (List String × List ℚ) → List InternalCoordinates →
    Except String (Option (List InternalCoordinates))
  | [], _ => .ok none
  | ([a1, a2, a3, a4], [v1, v2, v3, v4, v5]) :: rest, ics =>
    _dict_to_ics_loop rest (ics ++ [⟨a1, a2, a3, a4, v1, v2, v3, v4, v5⟩])
  | (key, _) :: _, _ =>
    if key.length ≠ 4 then
      .error "The internal coordinate must be provided as a tuple of four atom IDs."
    else
      .error "The internal coordinate must be provided as a tuple of five values."

/-- Embeds `_dict_to_ics` (Linkage.py lines 172-184). -/
def _dict_to_ics (d : List (List String × List ℚ)) :
    Except String (Option (List InternalCoordinates)) :=
  _dict_to_ics_loop d []

/-- Embeds the module-level `linkage` factory (Linkage.py lines 68-119),
restricted to single string ids for the delete arguments (the source also
accepts tuples there, which the claims do not need).  The statement
`for ic in _dict_to_ics(internal_coordinates)` iterates the return value of
`_dict_to_ics`; when that value is Python `None` the iteration raises
TypeError. -/
def linkage (atom1 atom2 : String)
    (delete_in_target delete_in_source : Option (List Char))
    (internal_coordinates : Option (List (List String × List ℚ)))
    (id : Option String) : Except String Linkage := do
  let l := Linkage.empty id
  let l := l.add_bond (atom1, atom2)
  let l ← match delete_in_target with
    | none => pure l
    | some d => l.add_delete d (some "target")
  let l ← match delete_in_source with
    | none => pure l
    | some d => l.add_delete d (some "source")
  match internal_coordinates with
  | none => pure l
  | some ics =>
    match ← _dict_to_ics ics with
    | none => .error "TypeError: NoneType object is not iterable"
    | some list => pure (list.foldl (fun acc ic => acc.add_internal_coordinates ic) l)

/-! ## Embedding of biobuild/resources/pdbe_compounds.py -/

/-- Embeds `PDBECompounds.get(query, "id", "dict")` (pdbe_compounds.py lines
736-788 together with `_get`, lines 962-998).  The compound dictionary is
reduced to the one field the translation routine reads: for each compound id,
the "three_letter_code" entry of its compound dict (`none` models a Python
None there, e.g. a cif field that was "?").  An id lookup via `_get` yields an
empty or a one-entry dict, so `get` returns Python None for an unknown id and
the compound dict otherwise; the multi-match branch is unreachable for id
queries. -/
def pdbe_get_dict (compounds : List (String × Option String)) (q : String) :
    Option (Option String) :=
  compounds.lookup q

/-- Embeds `PDBECompounds.translate_ids_1_to_3` (pdbe_compounds.py lines
899-921).  The statement `return new` sits inside the for loop, so the
function returns during the first iteration; on an empty input the loop body
never runs and the function falls off the end, returning Python None
(modelled as `Except.ok none`).  When `get` returns None for an id absent from
the dictionary, the subsequent attribute access
`i.get("three_letter_code", None)` is performed on None and raises
AttributeError. -/
def translate_ids_1_to_3 (compounds : List (String × Option String))
    (ids : List String) : Except String (Option (List String)) :=
  match ids with
  | [] => .ok none
  | i :: _ =>
    match pdbe_get_dict compounds i with
    | none => .error "AttributeError: NoneType object has no attribute get"
    | some tlc =>
      match tlc with
      | none => .ok (some ["XXX"])
      | some code => .ok (some [code])

/-! ## Embedding of biobuild/structural/stitch.py -/

/-- Embeds `Stitcher._find_removals` (stitch.py lines 173-188).  Each residue
is represented by the id list of its `child_dict`; atoms are identified by
their ids within the residue.  The Python sets in the result are modelled as
deduplicated lists. -/
def find_removals (target_removals source_removals : List String)
    (target_childs source_childs : List String) : List String × List String :=
  ( (target_removals.filter (fun a => decide (a ∈ target_childs))).dedup
  , (source_removals.filter (fun a => decide (a ∈ source_childs))).dedup )

/-- One molecule as acted on by `Stitcher._remove_atoms` (stitch.py lines
190-220): the atom-graph node set, the private `_bonds` list and the atoms of
the model in iteration order.  Atoms are identified by their full_id, modelled
as a natural number. -/
structure StitchMol where
  graph_nodes : List Nat
  bonds : List (Nat × Nat)
  atoms : List Nat
deriving DecidableEq, Repr

/-- Embeds the bond-removal loop of `_remove_atoms` (stitch.py lines 206-212):
a generator over `obj._bonds` is consumed while `obj._bonds.remove(bond)`
mutates the same list.  The generator reads the live list by index; removing
the element just yielded shifts the later elements one position left, so the
element right after it is never examined. -/
def py_remove_matching_loop (p : Nat × Nat → Bool) :
    Nat → List (Nat × Nat) → Nat → List (Nat × Nat)
  | 0, lst, _ => lst
  | fuel + 1, lst, i =>
    if h : i < lst.length then
      let b := lst.get ⟨i, h⟩
      if p b then py_remove_matching_loop p fuel (lst.erase b) (i + 1)
      else py_remove_matching_loop p fuel lst (i + 1)
    else lst

/-- The bond-removal loop run from the start of the list; the index grows on
every step and the list never grows, so the initial length bounds the number
of steps. -/
def py_remove_matching (p : Nat × Nat → Bool) (lst : List (Nat × Nat)) :
    List (Nat × Nat) :=
  py_remove_matching_loop p lst.length lst 0

/-- Embeds the body of the atom loop of `_remove_atoms` (stitch.py lines
204-215) for a single atom: drop the graph node, run the bond-removal loop for
bonds whose either end carries the atom id, detach the atom from its
residue. -/
def remove_one_atom (m : StitchMol) (atom : Nat) : StitchMol :=
  { graph_nodes := m.graph_nodes.erase atom
  , bonds := py_remove_matching (fun b => b.1 == atom || b.2 == atom) m.bonds
  , atoms := m.atoms.erase atom }

/-- Embeds `_remove_atoms` for one molecule (stitch.py lines 201-220): remove
each flagged atom (the Python set of removals given in iteration order), then
assign the remaining atoms serial numbers 1..N in model order.  Returns the
final molecule together with the assigned (atom, serial) pairs. -/
def remove_atoms (m : StitchMol) (removals : List Nat) :
    StitchMol × List (Nat × Nat) :=
  let m2 := removals.foldl remove_one_atom m
  (m2, m2.atoms.enum.map (fun p => (p.2, p.1 + 1)))

/-! ## Embedding of biobuild/graphs/BaseGraph.py -/

/-- Coordinates: rationals stand in for the numpy floats. -/
abbrev Vec3 := ℚ × ℚ × ℚ

/-- Embeds the state of `BaseGraph` (BaseGraph.py lines 14-26).  Nodes are the
atom objects of the molecule, identified here by distinct natural numbers.
`edges` is the networkx edge list in iteration order, one stored orientation
per undirected edge; `bond_orders` models the optional "bond_order" edge
attribute; `locked_edges` is the `_locked_edges` set of ordered node pairs;
`coord` gives each atom its 3D coordinate. -/
structure BaseGraph where
  nodes : List Nat
  edges : List (Nat × Nat)
  bond_orders : List ((Nat × Nat) × Nat)
  locked_edges : List (Nat × Nat)
  coord : Nat → Vec3

/-- The neighbors of a node, read off the undirected edge list (networkx
`self.adj`). -/
def BaseGraph.adj (g : BaseGraph) (n : Nat) : List Nat :=
  (g.edges.filterMap (fun e =>
    if e.1 = n then some e.2 else if e.2 = n then some e.1 else none)).dedup

/-- Embeds `BaseGraph.is_locked` (BaseGraph.py lines 375-389): membership of
the ordered pair in `_locked_edges`. -/
def BaseGraph.is_locked (g : BaseGraph) (n1 n2 : Nat) : Bool :=
  decide ((n1, n2) ∈ g.locked_edges)

/-- Embeds `BaseGraph.lock_edge` (BaseGraph.py lines 352-361): set insertion
of the ordered pair. -/
def BaseGraph.lock_edge (g : BaseGraph) (n1 n2 : Nat) : BaseGraph :=
  if (n1, n2) ∈ g.locked_edges then g
  else { g with locked_edges := g.locked_edges ++ [(n1, n2)] }

/-- The worklist loop of `BaseGraph.get_descendants` (BaseGraph.py lines
185-194): pop a node from `_new_neighs`, record it in `_seen` and in the
result `neighs`, and enqueue its not-yet-seen neighbors.  Python pops from a
set in arbitrary order; the worklist is modelled as a list, skipping entries
that were already popped, which yields the same accumulated set. -/
def descendants_loop (g : BaseGraph) :
    Nat → Finset ℕ → Finset ℕ → List ℕ → Finset ℕ
  | 0, _, neighs, _ => neighs
  | _ + 1, _, neighs, [] => neighs
  | fuel + 1, seen, neighs, n :: rest =>
    if n ∈ seen then descendants_loop g fuel seen neighs rest
    else
      let ds := (g.adj n).filter (fun x => decide (x ∉ seen))
      descendants_loop g fuel (insert n seen) (insert n neighs) (rest ++ ds)

/-- Fuel that dominates the worklist: at most `2 * edges + nodes` distinct
nodes ever enter `seen`, each enqueueing at most `2 * edges` neighbors. -/
def BaseGraph.desc_fuel (g : BaseGraph) : Nat :=
  (g.nodes.length + 2 * g.edges.length + 1) * (2 * g.edges.length + 1) + 1

/-- Embeds `BaseGraph.get_descendants` (BaseGraph.py lines 136-194) for an
adjacent pair: all nodes reached from `node_2` without passing back through
`node_1`.  Python raises KeyError when `node_2` is not a graph node
(`self.adj[node_2]`) or `node_1` is not among its neighbors
(`neighs.remove(node_1)`); callers below that can hit those cases check them
explicitly, this core assumes adjacency. -/
def BaseGraph.get_descendants (g : BaseGraph) (n1 n2 : Nat) : Finset ℕ :=
  let neighs := (g.adj n2).filter (fun x => decide (x ≠ n1))
  descendants_loop g g.desc_fuel {n1, n2} neighs.toFinset neighs

/-- Embeds `BaseGraph.get_ancestors` (BaseGraph.py lines 196-241):
`get_descendants` with the edge reversed. -/
def BaseGraph.get_ancestors (g : BaseGraph) (n1 n2 : Nat) : Finset ℕ :=
  g.get_descendants n2 n1

/-- Embeds `BaseGraph.in_same_cycle` (BaseGraph.py lines 303-317): scan the
given cycle list (node lists, as produced by `nx.cycle_basis`) for one that
contains both nodes.  The `if not cycles` recomputation of the source is the
identity here, because the parameter always stands for `nx.cycle_basis(self)`
itself and the empty basis recomputes to itself. -/
def in_same_cycle (cycles : List (List Nat)) (n1 n2 : Nat) : Bool :=
  cycles.any (fun c => decide (n1 ∈ c) && decide (n2 ∈ c))

/-- Embeds `self[i[0]][i[1]].get("bond_order", 1)` (BaseGraph.py line 283):
undirected edge-attribute lookup with default 1. -/
def BaseGraph.bond_order (g : BaseGraph) (n1 n2 : Nat) : Nat :=
  match g.bond_orders.find? (fun p => p.1 == (n1, n2) || p.1 == (n2, n1)) with
  | some p => p.2
  | none => 1

/-- Embeds `if not max_descendants: max_descendants = np.inf` (BaseGraph.py
lines 273-276): Python treats both None and 0 as falsy, so a max bound of 0
also becomes infinity (`none`). -/
def effective_max : Option Nat → Option Nat
  | none => none
  | some 0 => none
  | some m => some m

/-- Comparison against the possibly infinite max bound. -/
def lt_max (n : Nat) : Option Nat → Bool
  | none => true
  | some m => decide (n < m)

/-- Embeds `BaseGraph.find_rotatable_edges` (BaseGraph.py lines 243-301).
`circulars` stands for the external call `nx.cycle_basis(self)` and
`dfs_edges` for `nx.dfs_tree(self, root_node).edges` when a root node is
given; both are passed in as data.  Note the strict comparisons of the final
filter, `min_descendants < len(...) < max_descendants`, taken verbatim from
the source. -/
def BaseGraph.find_rotatable_edges (g : BaseGraph) (circulars : List (List Nat))
    (dfs_edges : Option (List (Nat × Nat))) (min_descendants min_ancestors : Nat)
    (max_descendants max_ancestors : Option Nat) : List (Nat × Nat) :=
  let maxd := effective_max max_descendants
  let maxa := effective_max max_ancestors
  let rot := g.edges.filter (fun i =>
    !(g.is_locked i.1 i.2) && (g.bond_order i.1 i.2 == 1) &&
      !(in_same_cycle circulars i.1 i.2))
  let rot := match dfs_edges with
    | none => rot
    | some d => d.filter (fun i => decide (i ∈ rot) || decide ((i.2, i.1) ∈ rot))
  rot.filter (fun i =>
    decide (min_descendants < (g.get_descendants i.1 i.2).card) &&
    lt_max (g.get_descendants i.1 i.2).card maxd &&
    decide (min_ancestors < (g.get_ancestors i.1 i.2).card) &&
    lt_max (g.get_ancestors i.1 i.2).card maxa)

/-- The keys of the `nodes` dict of `rotate_around_edge` (BaseGraph.py lines
478-482): the descendants of the edge followed by `node_2` when
`descendants_only`, every graph node otherwise.  The descendant set is listed
in sorted order, standing for the arbitrary Python set iteration order (the
produced coordinate mapping is keyed, hence order-insensitive). -/
def BaseGraph.rotated_nodes (g : BaseGraph) (n1 n2 : Nat)
    (descendants_only : Bool) : List Nat :=
  if descendants_only then (g.get_descendants n1 n2).sort (· ≤ ·) ++ [n2]
  else g.nodes

/-- The new coordinate the rotation assigns to a moved node `i` (BaseGraph.py
lines 491-498): apply the rotation map to every coordinate, then subtract the
shift of `node_2` so that `node_2` keeps its old position.  `rApply` stands
for the external map
`scipy.spatial.transform.Rotation.from_rotvec(angle * unit(n2 - n1)).apply`
and is kept abstract: each property proved below holds for an arbitrary
map. -/
def rotated_coord (g : BaseGraph) (rApply : Vec3 → Vec3) (n2 i : Nat) : Vec3 :=
  rApply (g.coord i) - (rApply (g.coord n2) - g.coord n2)

/-- Embeds `BaseGraph.rotate_around_edge` (BaseGraph.py lines 425-506).
Failure cases, in source order: `node_1 is node_2` (ValueError); a locked edge
in the stored orientation (ValueError); `node_1` absent from the graph (the
`next` computing `idx_1` exhausts its generator and raises StopIteration);
with `descendants_only`, a missing adjacency inside `get_descendants`
(KeyError from `self.adj[node_2]` or `set.remove`); `node_2` absent from the
dict keys (the `next` computing `idx_2` raises StopIteration).  The zero-axis
case raises nothing in the source: `edge_vector /= np.linalg.norm(...)` on a
zero vector yields NaN under a numpy warning and scipy builds a NaN rotation
from it, which is folded into `rApply` here.  Returns the updated graph and
the returned coordinate dict as an association list: current coordinates for
every graph node, overwritten by the new coordinates of the moved nodes, any
moved node outside the node list appended at the end (dict update order). -/
def BaseGraph.rotate_around_edge (g : BaseGraph) (rApply : Vec3 → Vec3)
    (n1 n2 : Nat) (descendants_only update_coords : Bool) :
    Except String (BaseGraph × List (Nat × Vec3)) :=
  if n1 = n2 then .error "Cannot rotate around an edge with only one node!"
  else if g.is_locked n1 n2 then .error "Cannot rotate around a locked edge!"
  else if ¬ (n1 ∈ g.nodes) then .error "StopIteration"
  else if descendants_only = true ∧ ¬ (n2 ∈ g.nodes ∧ n1 ∈ g.adj n2) then
    .error "KeyError"
  else
    let keys := g.rotated_nodes n1 n2 descendants_only
    if ¬ (n2 ∈ keys) then .error "StopIteration"
    else
      let newc := rotated_coord g rApply n2
      let g2 := if update_coords then
          { g with coord := fun i => if i ∈ keys then newc i else g.coord i }
        else g
      let base := g.nodes.map (fun i => (i, if i ∈ keys then newc i else g.coord i))
      let extra := (keys.filter (fun i => !(decide (i ∈ g.nodes)))).map
        (fun i => (i, newc i))
      .ok (g2, base ++ extra)

/-! ## Cycles and the cycle-basis contract

`nx.cycle_basis` is an external networkx call.  Its documented contract is
that it returns a list of cycles (as node lists) forming a basis of the cycle
space: every cycle of the graph is a sum - a symmetric difference of edge
sets - of basis cycles.  The following definitions state that contract for
the shallow embedding; theorems take the decomposition of a given cycle as a
hypothesis. -/

/-- Orientation-normalized form of an undirected edge. -/
def norm_pair (e : Nat × Nat) : Nat × Nat :=
  if e.1 ≤ e.2 then e else (e.2, e.1)

/-- The edge set of a cycle given as a node list `[v0, ..., vk]` (closing edge
`vk - v0` included), with normalized orientations. -/
def cycle_edges (c : List Nat) : Finset (Nat × Nat) :=
  ((c.zip (c.rotate 1)).map norm_pair).toFinset

/-- An undirected edge of the graph, in either stored orientation. -/
def BaseGraph.has_edge (g : BaseGraph) (u v : Nat) : Prop :=
  (u, v) ∈ g.edges ∨ (v, u) ∈ g.edges

/-- A ring of the graph in the sense underlying `nx.cycle_basis`: at least
three distinct nodes, cyclically consecutive ones joined by a graph edge. -/
def BaseGraph.IsCycle (g : BaseGraph) (c : List Nat) : Prop :=
  3 ≤ c.length ∧ c.Nodup ∧ ∀ p ∈ c.zip (c.rotate 1), g.has_edge p.1 p.2

/-- Symmetric difference of two edge sets. -/
def edge_symm_diff (A B : Finset (Nat × Nat)) : Finset (Nat × Nat) :=
  (A \ B) ∪ (B \ A)

/-- The sum (iterated symmetric difference) of the edge sets of a list of
cycles, as in the cycle-space decomposition of the `nx.cycle_basis`
contract. -/
def symm_diff_edges (S : List (List Nat)) : Finset (Nat × Nat) :=
  S.foldr (fun b acc => edge_symm_diff (cycle_edges b) acc) ∅

/-! ## Concrete instances used by evaluations and witnesses -/

/-- The linear chain A-B-C-D of spec Scenario B, nodes 1..4, single-order
unlocked bonds (no bond_order attributes, so every lookup defaults to 1). -/
def chainG : BaseGraph :=
  { nodes := [1, 2, 3, 4], edges := [(1, 2), (2, 3), (3, 4)]
  , bond_orders := [], locked_edges := [], coord := fun _ => (0, 0, 0) }

/-- A triangle ring, nodes 1, 2, 3. -/
def triangleG : BaseGraph :=
  { nodes := [1, 2, 3], edges := [(1, 2), (2, 3), (1, 3)]
  , bond_orders := [], locked_edges := [], coord := fun _ => (0, 0, 0) }

/-- A two-node, one-edge graph with distinct coordinates. -/
def pairG : BaseGraph :=
  { nodes := [1, 2], edges := [(1, 2)], bond_orders := [], locked_edges := []
  , coord := fun n => if n = 1 then (0, 0, 0) else (1, 0, 0) }

/-- A two-node, one-edge graph whose nodes share one coordinate, so that the
rotation axis `node_2 - node_1` has zero length. -/
def degenerateG : BaseGraph :=
  { nodes := [1, 2], edges := [(1, 2)], bond_orders := [], locked_edges := []
  , coord := fun _ => (0, 0, 0) }

/-- A quarter-turn about the z axis: a concrete stand-in for the scipy
rotation map. -/
def rot90 : Vec3 → Vec3 := fun v => (-v.2.1, v.1, v.2.2)

/-- A three-atom molecule in which both bonds reference atom 1 and sit next to
each other in the bond list. -/
def exMol : StitchMol :=
  { graph_nodes := [1, 2, 3], bonds := [(1, 2), (1, 3)], atoms := [1, 2, 3] }

/-! ## Helper lemmas -/

theorem in_same_cycle_iff (cycles : List (List Nat)) (n1 n2 : Nat) :
    in_same_cycle cycles n1 n2 = true ↔ ∃ c ∈ cycles, n1 ∈ c ∧ n2 ∈ c := by
  simp [in_same_cycle]

theorem mem_edge_symm_diff (A B : Finset (Nat × Nat)) (e : Nat × Nat) :
    e ∈ edge_symm_diff A B ↔ (e ∈ A ∧ e ∉ B) ∨ (e ∈ B ∧ e ∉ A) := by
  simp [edge_symm_diff]

theorem mem_symm_diff_edges (S : List (List Nat)) (e : Nat × Nat)
    (he : e ∈ symm_diff_edges S) : ∃ b ∈ S, e ∈ cycle_edges b := by
  induction S with
  | nil => simp [symm_diff_edges] at he
  | cons b S ih =>
    rcases (mem_edge_symm_diff _ _ e).mp he with ⟨h1, _⟩ | ⟨h2, _⟩
    · exact ⟨b, List.mem_cons_self b S, h1⟩
    · obtain ⟨b2, hb2, hmem⟩ := ih h2
      exact ⟨b2, List.mem_cons_of_mem b hb2, hmem⟩

theorem norm_pair_cases (p : Nat × Nat) (u v : Nat)
    (h : norm_pair p = norm_pair (u, v)) : p = (u, v) ∨ p = (v, u) := by
  obtain ⟨a, b⟩ := p
  simp only [norm_pair] at h
  split_ifs at h <;> simp only [Prod.mk.injEq] at h ⊢ <;> omega

theorem mem_cycle_edges_ends (c : List Nat) (u v : Nat)
    (h : norm_pair (u, v) ∈ cycle_edges c) : u ∈ c ∧ v ∈ c := by
  simp only [cycle_edges, List.mem_toFinset, List.mem_map] at h
  obtain ⟨p, hp, hpe⟩ := h
  obtain ⟨x, y⟩ := p
  obtain ⟨hx, hy⟩ := List.of_mem_zip hp
  rw [List.mem_rotate] at hy
  rcases norm_pair_cases (x, y) u v hpe with h | h <;>
    · rw [Prod.mk.injEq] at h
      obtain ⟨h1, h2⟩ := h
      subst h1; subst h2
      exact ⟨by assumption, by assumption⟩

theorem lookup_map_self {β : Type} (l : List Nat) (f : Nat → β) (i : Nat)
    (hi : i ∈ l) (tail : List (Nat × β)) :
    ((l.map (fun j => (j, f j))) ++ tail).lookup i = some (f i) := by
  induction l with
  | nil => cases hi
  | cons a l ih =>
    by_cases hia : i = a
    · subst hia
      simp [List.lookup]
    · have hi2 : i ∈ l := by
        rcases List.mem_cons.mp hi with h | h
        · exact absurd h hia
        · exact h
      simpa [List.lookup, beq_false_of_ne hia] using ih hi2

/-- Success shape of `rotate_around_edge`: under the validity conditions the
call goes through every check and returns the updated graph and coordinate
dict built from `rotated_nodes` and `rotated_coord`. -/
theorem rotate_ok (g : BaseGraph) (rApply : Vec3 → Vec3) (n1 n2 : Nat)
    (dOnly u : Bool) (hne : n1 ≠ n2) (hlock : (n1, n2) ∉ g.locked_edges)
    (h1 : n1 ∈ g.nodes) (h2 : n2 ∈ g.nodes)
    (hadj : dOnly = true → n1 ∈ g.adj n2) :
    g.rotate_around_edge rApply n1 n2 dOnly u = .ok
      ( (if u then
          { g with coord := fun i =>
              if i ∈ g.rotated_nodes n1 n2 dOnly then rotated_coord g rApply n2 i
              else g.coord i }
         else g)
      , g.nodes.map (fun i =>
          (i, if i ∈ g.rotated_nodes n1 n2 dOnly then rotated_coord g rApply n2 i
            else g.coord i))
        ++ ((g.rotated_nodes n1 n2 dOnly).filter
              (fun i => !(decide (i ∈ g.nodes)))).map
            (fun i => (i, rotated_coord g rApply n2 i)) ) := by
  have hkey : n2 ∈ g.rotated_nodes n1 n2 dOnly := by
    cases dOnly <;> simp [BaseGraph.rotated_nodes, h2]
  have hnl : ¬ (g.is_locked n1 n2 = true) := by
    simp [BaseGraph.is_locked, hlock]
  have hdesc : ¬ (dOnly = true ∧ ¬ (n2 ∈ g.nodes ∧ n1 ∈ g.adj n2)) := by
    rintro ⟨hd, hn⟩
    exact hn ⟨h2, hadj hd⟩
  unfold BaseGraph.rotate_around_edge
  rw [if_neg hne, if_neg hnl, if_neg (not_not_intro h1), if_neg hdesc,
    if_neg (not_not_intro hkey)]

/-! ## Claim theorems -/

/-- Claim C1: on the linear chain A-B-C-D with single-order unlocked bonds,
`find_rotatable_edges` with a minimum of 1 ancestor and 1 descendant on each
side is claimed to return exactly the edge (B, C).  Evaluating the embedded
source on the chain (nodes 1..4): the strict comparison
`min_descendants < len(...)` excludes the edge (2, 3), whose descendant and
ancestor counts are exactly 1, so the call returns the empty list; bounds of 0
would be needed to obtain [(2, 3)].  This contradicts the claim, spec
Scenario B, and the docstring of the parameters ("the minimum number of
descendants that an edge must have to be considered rotatable"). -/
theorem chain_min_bounds_eval :
    chainG.find_rotatable_edges [] none 1 1 none none = [] ∧
    chainG.find_rotatable_edges [] none 0 0 none none = [(2, 3)] :=
  ⟨by decide, by decide⟩

/-- Claim C2: constructing a linkage with an internal-coordinate table.  A key
without exactly four ids, or a value without exactly five numbers, raises
ValueError as claimed; but the all-valid case does not succeed: `_dict_to_ics`
builds its list and then falls off the end without a return statement, so
`linkage` iterates over None and raises TypeError, contradicting the
documented return of the new linkage carrying the internal coordinates. -/
theorem linkage_internal_coordinates_eval :
    linkage "C1" "O4" none none (some [(["a", "b", "c", "d"], [1, 2, 3, 4, 5])]) none
      = .error "TypeError: NoneType object is not iterable" ∧
    linkage "C1" "O4" none none (some [(["a", "b", "c"], [1, 2, 3, 4, 5])]) none
      = .error "The internal coordinate must be provided as a tuple of four atom IDs." ∧
    linkage "C1" "O4" none none (some [(["a", "b", "c", "d"], [1, 2, 3, 4])]) none
      = .error "The internal coordinate must be provided as a tuple of five values." :=
  ⟨rfl, rfl, rfl⟩

/-- Claim C3: after the atom-removal step the claim asserts that no remaining
bond references a removed atom, that removed graph nodes are gone, and that
serials are contiguous 1..N.  Evaluating the embedded `_remove_atoms` on a
molecule whose bond list holds two adjacent bonds of the removed atom 1: the
graph-node and serial parts hold, but the bond (1, 3) survives and still
references the removed atom, because the removal loop removes elements from
the very list its generator is iterating and thereby skips the bond that
followed the removed one. -/
theorem remove_atoms_dangling_bond_eval :
    remove_atoms exMol [1]
      = ({ graph_nodes := [2, 3], bonds := [(1, 3)], atoms := [2, 3] },
         [(2, 1), (3, 2)]) ∧
    (1, 3) ∈ (remove_atoms exMol [1]).1.bonds :=
  ⟨by decide, by decide⟩

/-- Claim C5 counterexample: with an empty compound dictionary the first id
"Z" is unknown; the claim says the call returns the singleton ["XXX"], but
`get` returns Python None for an unknown id, and the subsequent attribute
access on None raises AttributeError. -/
theorem translate_unknown_id_raises :
    translate_ids_1_to_3 [] ["Z"] ≠ .ok (some ["XXX"]) ∧
    translate_ids_1_to_3 [] ["Z"]
      = .error "AttributeError: NoneType object has no attribute get" :=
  ⟨fun h => Except.noConfusion h, rfl⟩

/-- Claim C5 (amended): the routine processes only the first id of its input,
regardless of the length of the list: for every input whose first id is a
known compound it returns a singleton holding that compound's three-letter
code, with "XXX" when the stored code is None; a first id absent from the
dictionary raises AttributeError instead of yielding "XXX". -/
theorem translate_first_id_only (compounds : List (String × Option String))
    (i : String) (rest : List String) :
    (compounds.lookup i = none →
      translate_ids_1_to_3 compounds (i :: rest)
        = .error "AttributeError: NoneType object has no attribute get") ∧
    ∀ c, compounds.lookup i = some c →
      translate_ids_1_to_3 compounds (i :: rest) = .ok (some [c.getD "XXX"]) := by
  constructor
  · intro h
    simp [translate_ids_1_to_3, pdbe_get_dict, h]
  · intro c h
    cases c <;> simp [translate_ids_1_to_3, pdbe_get_dict, h]

/-- Witness for the amended C5 theorem: a dictionary knowing compound "A" and
a three-element input, translated to the singleton of the first id only. -/
theorem translate_first_id_only_witness :
    translate_ids_1_to_3 [("A", some "ALA")] ["A", "B", "C"]
      = .ok (some [(some "ALA").getD "XXX"]) :=
  (translate_first_id_only [("A", some "ALA")] "A" ["B", "C"]).2 (some "ALA") rfl

/-- Claim C8: `_find_removals` never raises (it is total) and silently drops
delete ids absent from their residue: side 1 of the result holds exactly the
listed ids present in the target residue, side 2 exactly those present in the
source residue. -/
theorem find_removals_silently_drops_absent
    (target_removals source_removals target_childs source_childs : List String)
    (x : String) :
    (x ∈ (find_removals target_removals source_removals target_childs source_childs).1
      ↔ x ∈ target_removals ∧ x ∈ target_childs) ∧
    (x ∈ (find_removals target_removals source_removals target_childs source_childs).2
      ↔ x ∈ source_removals ∧ x ∈ source_childs) := by
  constructor <;> simp [find_removals, List.mem_dedup, List.mem_filter]

/-- Claim C9: `add_delete` without a side marker fails exactly when the id
does not begin with the character 1 or 2 (an empty id fails with IndexError);
with marker "target" (resp. "source") it succeeds and the id subsequently
appears in the first (resp. second) list of the `deletes` property; any other
marker fails. -/
theorem add_delete_spec (l : Linkage) (id : List Char) :
    ((l.add_delete id none).isOk = true ↔
      id.head? = some '1' ∨ id.head? = some '2') ∧
    (∃ l2, l.add_delete id (some "target") = .ok l2 ∧ id ∈ l2.deletes.1) ∧
    (∃ l2, l.add_delete id (some "source") = .ok l2 ∧ id ∈ l2.deletes.2) ∧
    (∀ f, f ≠ "source" → f ≠ "target" →
      (l.add_delete id (some f)).isOk = false) := by
  refine ⟨?_, ?_, ?_, ?_⟩
  · cases id with
    | nil => simp [Linkage.add_delete, Except.isOk, Except.toBool]
    | cons c cs =>
      by_cases hc : c = '1' ∨ c = '2'
      · simp only [Linkage.add_delete, if_pos hc, List.head?_cons]
        constructor
        · intro _
          rcases hc with h | h <;> simp [h]
        · intro _
          rfl
      · simp only [Linkage.add_delete, if_neg hc, List.head?_cons]
        constructor
        · intro h
          exact absurd h (by simp [Except.isOk, Except.toBool])
        · intro h
          refine absurd ?_ hc
          rcases h with h | h <;> rw [Option.some_inj] at h
          · exact Or.inl h
          · exact Or.inr h
  · refine ⟨_, rfl, ?_⟩
    simp only [Linkage.deletes, List.filter_append, List.map_append]
    apply List.mem_append_right
    simp [List.filter, List.headI]
  · refine ⟨_, rfl, ?_⟩
    simp only [Linkage.deletes, List.filter_append, List.map_append]
    apply List.mem_append_right
    simp [List.filter, List.headI]
  · intro f h1 h2
    simp [Linkage.add_delete, h1, h2, Except.isOk, Except.toBool]

/-- Witness for the C9 theorem: a marker that is neither source nor target is
rejected on the empty linkage. -/
theorem add_delete_spec_witness :
    ((Linkage.empty none).add_delete ['Q'] (some "side")).isOk = false :=
  (add_delete_spec (Linkage.empty none) ['Q']).2.2.2 "side" (by decide) (by decide)

/-- Claim C4 counterexample: locking the edge via `lock_edge(2, 1)` and then
rotating around (1, 2) raises nothing, because `is_locked` only tests the
ordered pair (node_1, node_2); and rotating about the zero-length axis of
`degenerateG` raises nothing either (the source has no check there; numpy
turns the zero division into NaN under a mere warning and scipy accepts it).
Both contradict the claim that these calls surface an error. -/
theorem rotate_reverse_lock_no_error :
    ((pairG.lock_edge 2 1).rotate_around_edge rot90 1 2 false true).isOk = true ∧
    (degenerateG.rotate_around_edge rot90 1 2 false true).isOk = true :=
  ⟨rfl, rfl⟩

/-- Claim C4 (amended): `rotate_around_edge` surfaces an error when `node_1`
is `node_2`, and when the edge was locked in the same (node_1, node_2) order
as the call; a lock recorded in the opposite argument order is not detected,
and a degenerate (zero-length) axis is not checked, so in every other valid
configuration - including a reversed-order lock and coinciding endpoint
coordinates - the call succeeds without error. -/
theorem rotate_error_conditions (g : BaseGraph) (rApply : Vec3 → Vec3)
    (n1 n2 : Nat) (dOnly u : Bool) :
    (n1 = n2 → g.rotate_around_edge rApply n1 n2 dOnly u
      = .error "Cannot rotate around an edge with only one node!") ∧
    (n1 ≠ n2 → (n1, n2) ∈ g.locked_edges →
      g.rotate_around_edge rApply n1 n2 dOnly u
        = .error "Cannot rotate around a locked edge!") ∧
    (n1 ≠ n2 → (n1, n2) ∉ g.locked_edges → n1 ∈ g.nodes → n2 ∈ g.nodes →
      (dOnly = true → n1 ∈ g.adj n2) →
      (g.rotate_around_edge rApply n1 n2 dOnly u).isOk = true) := by
  refine ⟨?_, ?_, ?_⟩
  · intro h
    unfold BaseGraph.rotate_around_edge
    rw [if_pos h]
  · intro hne hl
    have hlb : g.is_locked n1 n2 = true := by
      simp [BaseGraph.is_locked, hl]
    unfold BaseGraph.rotate_around_edge
    rw [if_neg hne, if_pos hlb]
  · intro hne hlock hn1 hn2 hadj
    rw [rotate_ok g rApply n1 n2 dOnly u hne hlock hn1 hn2 hadj]
    rfl

/-- Witness for the amended C4 theorem: a lock stored in the same order as the
rotation call is detected and raises. -/
theorem rotate_error_conditions_witness :
    (pairG.lock_edge 1 2).rotate_around_edge rot90 1 2 false true
      = .error "Cannot rotate around a locked edge!" :=
  (rotate_error_conditions (pairG.lock_edge 1 2) rot90 1 2 false true).2.1
    (by decide) (by decide)

/-- Claim C6: every edge lying on a ring of the graph is absent, in both
orientations, from the result of `find_rotatable_edges`, for every lock state,
bond orders, root filter and count bounds.  `circulars` is the output of the
external `nx.cycle_basis` call; its documented basis contract supplies the
hypothesis that the given ring decomposes as a symmetric difference of basis
cycles, from which both endpoints of the edge lie on one basis cycle and the
`in_same_cycle` filter removes the edge before any lock test could matter. -/
theorem ring_edges_never_rotatable (g : BaseGraph)
    (circulars S : List (List Nat)) (dfs_edges : Option (List (Nat × Nat)))
    (mind mina : Nat) (maxd maxa : Option Nat) (c : List Nat) (u v : Nat)
    (_hcyc : g.IsCycle c) (hS : ∀ b ∈ S, b ∈ circulars)
    (hdec : cycle_edges c = symm_diff_edges S)
    (he : norm_pair (u, v) ∈ cycle_edges c) :
    (u, v) ∉ g.find_rotatable_edges circulars dfs_edges mind mina maxd maxa ∧
    (v, u) ∉ g.find_rotatable_edges circulars dfs_edges mind mina maxd maxa := by
  obtain ⟨b, hbS, hbe⟩ := mem_symm_diff_edges S _ (hdec ▸ he)
  obtain ⟨hu, hv⟩ := mem_cycle_edges_ends b u v hbe
  have hsame : ∀ x y : Nat, (x = u ∧ y = v) ∨ (x = v ∧ y = u) →
      in_same_cycle circulars x y = true := by
    rintro x y (⟨hx, hy⟩ | ⟨hx, hy⟩) <;> subst hx <;> subst hy <;>
      exact (in_same_cycle_iff _ _ _).mpr ⟨b, hS b hbS, by constructor <;> assumption⟩
  have hnotrot : ∀ x y : Nat, (x = u ∧ y = v) ∨ (x = v ∧ y = u) →
      (x, y) ∉ g.edges.filter (fun i =>
        !(g.is_locked i.1 i.2) && (g.bond_order i.1 i.2 == 1) &&
          !(in_same_cycle circulars i.1 i.2)) := by
    intro x y hxy hmem
    rw [List.mem_filter] at hmem
    have hp := hmem.2
    simp only [Bool.and_eq_true, Bool.not_eq_true'] at hp
    rw [hsame x y hxy] at hp
    exact absurd hp.2 (by simp)
  have key : ∀ x y : Nat, (x = u ∧ y = v) ∨ (x = v ∧ y = u) →
      (x, y) ∉ g.find_rotatable_edges circulars dfs_edges mind mina maxd maxa := by
    intro x y hxy hmem
    unfold BaseGraph.find_rotatable_edges at hmem
    cases dfs_edges with
    | none =>
      rw [List.mem_filter] at hmem
      exact hnotrot x y hxy hmem.1
    | some d =>
      rw [List.mem_filter] at hmem
      have hin := hmem.1
      rw [List.mem_filter] at hin
      have hor := hin.2
      simp only [Bool.or_eq_true, decide_eq_true_eq] at hor
      rcases hor with h | h
      · exact hnotrot x y hxy h
      · refine hnotrot y x ?_ h
        rcases hxy with ⟨hx, hy⟩ | ⟨hx, hy⟩
        · exact Or.inr ⟨hy, hx⟩
        · exact Or.inl ⟨hy, hx⟩
  exact ⟨key u v (Or.inl ⟨rfl, rfl⟩), key v u (Or.inr ⟨rfl, rfl⟩)⟩

/-- Witness for the C6 theorem: the edge (1, 2) of the triangle ring, with the
basis produced for the triangle, is excluded in both orientations. -/
theorem ring_edges_never_rotatable_witness :
    (1, 2) ∉ triangleG.find_rotatable_edges [[1, 2, 3]] none 0 0 none none ∧
    (2, 1) ∉ triangleG.find_rotatable_edges [[1, 2, 3]] none 0 0 none none :=
  ring_edges_never_rotatable triangleG [[1, 2, 3]] [[1, 2, 3]] none 0 0 none none
    [1, 2, 3] 1 2
    (by simp only [BaseGraph.IsCycle, BaseGraph.has_edge]; decide)
    (by decide) (by decide) (by decide)

/-- Claim C7: for an adjacent pair (a, b) with unlocked edge and nondegenerate
axis, rotating about (a, b) leaves the coordinate of b unchanged, for every
rotation map (hence every angle) and every value of `descendants_only`: the
translation step subtracts exactly the displacement of b. -/
theorem rotate_fixes_node2 (g : BaseGraph) (rApply : Vec3 → Vec3) (a b : Nat)
    (dOnly : Bool) (hab : a ≠ b) (hlock1 : (a, b) ∉ g.locked_edges)
    (_hlock2 : (b, a) ∉ g.locked_edges) (hag : a ∈ g.nodes) (hbg : b ∈ g.nodes)
    (hadj : a ∈ g.adj b) (_haxis : g.coord a ≠ g.coord b) :
    ∃ g2 m, g.rotate_around_edge rApply a b dOnly true = .ok (g2, m) ∧
      g2.coord b = g.coord b := by
  refine ⟨_, _, rotate_ok g rApply a b dOnly true hab hlock1 hag hbg
    (fun _ => hadj), ?_⟩
  have hkey : b ∈ g.rotated_nodes a b dOnly := by
    cases dOnly <;> simp [BaseGraph.rotated_nodes, hbg]
  rw [if_pos rfl]
  show (if b ∈ g.rotated_nodes a b dOnly then rotated_coord g rApply b b
    else g.coord b) = g.coord b
  rw [if_pos hkey]
  simp only [rotated_coord]
  exact sub_sub_cancel _ _

/-- Witness for the C7 theorem: the quarter-turn about the edge of `pairG`,
descendants only, keeps node 2 at its place. -/
theorem rotate_fixes_node2_witness :
    ∃ g2 m, pairG.rotate_around_edge rot90 1 2 true true = .ok (g2, m) ∧
      g2.coord 2 = pairG.coord 2 :=
  rotate_fixes_node2 pairG rot90 1 2 true (by decide) (by decide) (by decide)
    (by decide) (by decide) (by decide) (by decide)

/-- Claim C10: with `update_coords=False` the graph is returned with every
stored coordinate untouched, and the returned mapping holds an entry for every
graph node: the newly computed rotated coordinate for each moved node and the
current coordinate for every other node. -/
theorem rotate_no_update_frame (g : BaseGraph) (rApply : Vec3 → Vec3)
    (n1 n2 : Nat) (dOnly : Bool) (hne : n1 ≠ n2)
    (hlock : (n1, n2) ∉ g.locked_edges) (h1 : n1 ∈ g.nodes) (h2 : n2 ∈ g.nodes)
    (hadj : dOnly = true → n1 ∈ g.adj n2) :
    ∃ m, g.rotate_around_edge rApply n1 n2 dOnly false = .ok (g, m) ∧
      ∀ i ∈ g.nodes, m.lookup i = some
        (if i ∈ g.rotated_nodes n1 n2 dOnly then rotated_coord g rApply n2 i
          else g.coord i) := by
  refine ⟨_, rotate_ok g rApply n1 n2 dOnly false hne hlock h1 h2 hadj, ?_⟩
  intro i hi
  exact lookup_map_self g.nodes
    (fun i => if i ∈ g.rotated_nodes n1 n2 dOnly then rotated_coord g rApply n2 i
      else g.coord i) i hi _

/-- Witness for the C10 theorem: the no-update call on `pairG` returns the
graph unchanged together with the full coordinate mapping. -/
theorem rotate_no_update_frame_witness :
    ∃ m, pairG.rotate_around_edge rot90 1 2 false false = .ok (pairG, m) ∧
      ∀ i ∈ pairG.nodes, m.lookup i = some
        (if i ∈ pairG.rotated_nodes 1 2 false then rotated_coord pairG rot90 2 i
          else pairG.coord i) :=
  rotate_no_update_frame pairG rot90 1 2 false (by decide) (by decide)
    (by decide) (by decide) (by decide)

end Biobuild
